import Mathlib

/-!
Verification of the universal-importer pipeline (`src/main.py`).

The pipeline stages modelled here, with rows as association lists of
field values:

* `remove_duplicates_from_stage_table` — the DuckDB/SQL deduplication
  (`main.py` lines 97-159);
* `remove_composite_duplicates` — the pandas deduplication
  (`main.py` lines 199-221);
* `execute_custom_validations` — the custom-rule stage
  (`main.py` lines 161-197);
* `validate_records_with_pydantic` — schema validation
  (`main.py` lines 56-82), with the pydantic model as a parameter
  (pydantic is an external collaborator);
* `apply_aliases` / `create_views_with_projection` — projection building
  (`main.py` lines 223-265);
* `runPipeline` — the artifact-writing control flow of `main`
  (`main.py` lines 429-505).
-/

namespace Importer

/-- A scalar cell value: string, integer, date, or null/NaN. -/
inductive Value where
  | vstr : String → Value
  | vint : Int → Value
  | vdate : Int → Int → Int → Value
  | vnull : Value
deriving DecidableEq, Repr

/-- A record: an association list from field name to value
(a pandas/DuckDB row). -/
abbrev Row := List (String × Value)

/-- Field lookup on a row; absent fields read as null. -/
def getField (r : Row) (f : String) : Value :=
  match r.find? (fun p => p.1 == f) with
  | some p => p.2
  | none => Value.vnull

/-- Projection of a row onto a composite key: the tuple
`ROW(col1, ..., colk)` in the SQL queries, `subset=group` in pandas. -/
def projKey (k : List String) (r : Row) : List Value :=
  k.map (getField r)

/-- Number of rows of `df` sharing the key tuple `t`
(the `COUNT(*)` per `GROUP BY` group). -/
def tupleCount (k : List String) (df : List Row) (t : List Value) : Nat :=
  (df.filter (fun r => projKey k r == t)).length

/-!
### SQL deduplication, per key (`main.py` 106-153)

For `first`/`last` the source runs, for both policy values,

  DELETE ... WHERE ROWID IN (SELECT ROWID FROM
    (SELECT ROWID, ROW_NUMBER() OVER (PARTITION BY key ORDER BY ROWID) rn ...)
   WHERE rn > 1)

after SELECT-ing the same `rn > 1` rows as the duplicates report. A row
has `rn > 1` exactly when an earlier row (smaller ROWID) of the stage
table carries the same key tuple, so we scan the table in row order with
the set of key tuples already seen. The result is
(surviving rows, deleted-and-reported rows), both in row order.
-/

def sqlRowNumberSplit (k : List String) (seen : List (List Value)) :
    List Row → List Row × List Row
  | [] => ([], [])
  | r :: rest =>
    let t := projKey k r
    let (u, m) := sqlRowNumberSplit k (t :: seen) rest
    if t ∈ seen then (u, r :: m) else (r :: u, m)

/-- The tuples `SELECT ROW(key) ... GROUP BY key HAVING COUNT(*) > 1`
(`main.py` 113-117), as the list of key tuples of `df` that occur more
than once. -/
def dupKeyTuples (k : List String) (df : List Row) : List (List Value) :=
  (df.map (projKey k)).filter (fun t => 1 < tupleCount k df t)

/-- The `exclude_all` branch (`main.py` 108-130): report, then delete,
every row whose key tuple is in `dupKeyTuples`. Both statements evaluate
their subquery against the pre-delete table state, so the reported rows
equal the deleted rows. -/
def sqlExcludeAllSplit (k : List String) (df : List Row) : List Row × List Row :=
  (df.filter (fun r => !(projKey k r ∈ dupKeyTuples k df : Bool)),
   df.filter (fun r => (projKey k r ∈ dupKeyTuples k df : Bool)))

/-- One iteration of the composite-key loop of
`remove_duplicates_from_stage_table` (`main.py` 106-153): returns the
stage table after this key's pass and the rows appended to
`duplicate_rows`. A `duplicate_resolution` outside
{`exclude_all`, `first`, `last`} matches no branch and leaves the table
untouched. -/
def stageDedupKey (policy : String) (k : List String) (df : List Row) :
    List Row × List Row :=
  if policy = "exclude_all" then sqlExcludeAllSplit k df
  else if policy = "first" ∨ policy = "last" then sqlRowNumberSplit k [] df
  else (df, [])

/-- `remove_duplicates_from_stage_table` (`main.py` 97-159): fold the
per-key pass over `unique_composite` in declaration order, each pass
reading the stage table as left by the previous one; the per-key
duplicate reports are concatenated in pass order (`pd.concat`). Returns
(final stage table, concatenated duplicate report). -/
def remove_duplicates_from_stage_table (policy : String) :
    List (List String) → List Row → List Row × List Row
  | [], df => (df, [])
  | k :: ks, df =>
    let (d, rem) := stageDedupKey policy k df
    let (d2, rems) := remove_duplicates_from_stage_table policy ks d
    (d2, rem ++ rems)

/-!
### pandas deduplication, per key (`main.py` 199-221)

`df.duplicated(subset=k, keep="first")` marks a row iff an earlier row
has the same key tuple; `keep="last"` marks a row iff a later row has
the same key tuple; `keep=False` marks every member of a group of size
more than one. `df.drop_duplicates(subset=k, keep=res)` keeps the rows
the corresponding mask leaves unmarked. Each split below returns
(unmarked rows, marked rows), both in row order.
-/

def pandasSplitKeepFirst (k : List String) (pre : List Row) :
    List Row → List Row × List Row
  | [] => ([], [])
  | r :: rest =>
    let (u, m) := pandasSplitKeepFirst k (pre ++ [r]) rest
    if projKey k r ∈ pre.map (projKey k) then (u, r :: m)
    else (r :: u, m)

def pandasSplitKeepLast (k : List String) : List Row → List Row × List Row
  | [] => ([], [])
  | r :: rest =>
    let (u, m) := pandasSplitKeepLast k rest
    if projKey k r ∈ rest.map (projKey k) then (u, r :: m)
    else (r :: u, m)

def pandasSplitKeepNone (k : List String) (df : List Row) : List Row × List Row :=
  (df.filter (fun r => tupleCount k df (projKey k r) ≤ 1),
   df.filter (fun r => 1 < tupleCount k df (projKey k r)))

/-- `remove_composite_duplicates` (`main.py` 199-221). For
`exclude_all`, report and drop with `keep=False`. Otherwise the report
uses `keep="first" if resolution == "last" else "last"` (`main.py` 213)
while the drop uses `keep=resolution` (`main.py` 217). Per-key reports
are concatenated in pass order. -/
def remove_composite_duplicates (resolution : String) :
    List (List String) → List Row → List Row × List Row
  | [], df => (df, [])
  | k :: ks, df =>
    if resolution = "exclude_all" then
      let (d, rem) := pandasSplitKeepNone k df
      let (d2, rems) := remove_composite_duplicates resolution ks d
      (d2, rem ++ rems)
    else
      let rem := if resolution = "last" then (pandasSplitKeepFirst k [] df).2
                 else (pandasSplitKeepLast k df).2
      let d := if resolution = "last" then (pandasSplitKeepLast k df).1
               else (pandasSplitKeepFirst k [] df).1
      let (d2, rems) := remove_composite_duplicates resolution ks d
      (d2, rem ++ rems)

/-!
### Custom validations (`main.py` 161-197)

The only implemented rule kind is `age_gte`: a row is invalid when
`DATE_PART('year', AGE(DATE today, CAST(field AS DATE))) < min_age`,
i.e. when the whole-year age of the date stored in `field`, relative to
`today`, is below `min_age`. Dates are modelled as year/month/day
triples; a non-date cell never matches the SQL predicate.
-/

/-- Whole years elapsed from the date `(y0, m0, d0)` to `(ty, tm, td)`:
the year difference, minus one when the month/day of `today` has not yet
reached the month/day of the earlier date. -/
def ageYears (ty tm td y0 m0 d0 : Int) : Int :=
  ty - y0 - (if tm < m0 ∨ (tm = m0 ∧ td < d0) then 1 else 0)

/-- The `WHERE` predicate of the `age_gte` check (`main.py` 172-176),
for `today = (ty, tm, td)`. -/
def violatesAgeGte (ty tm td : Int) (field : String) (minAge : Int)
    (r : Row) : Bool :=
  match getField r field with
  | Value.vdate y0 m0 d0 => ageYears ty tm td y0 m0 d0 < minAge
  | _ => false

/-- One entry of `custom_validations`: the rule's field, its
`validation` kind string and its `min_age` parameter. -/
structure Rule where
  field : String
  validation : String
  minAge : Int
deriving DecidableEq, Repr

/-- The values `execute_custom_validations` returns on its normal exit
(`main.py` 197), plus the final contents of the stage table, which the
source leaves behind in DuckDB. -/
structure CVResult where
  issues : List (String × List Row)
  totalInvalid : Nat
  finalDf : List Row
deriving DecidableEq, Repr

/-- `execute_custom_validations` (`main.py` 161-197), with the stage
table threaded explicitly. Per rule with kind `age_gte`: compute the
invalid rows and add their count to `total_invalid_rows`; when some
exist, record `(field, invalid_rows)` and then either raise
(`validation_mode == "stop"`, the error carrying the field) or delete
the invalid rows (`validation_mode == "skip"`) before the next rule.
Rules of any other kind only log. -/
def execute_custom_validations (ty tm td : Int) (mode : String) :
    List Rule → List Row → Except String CVResult
  | [], df => Except.ok ⟨[], 0, df⟩
  | r :: rs, df =>
    if r.validation = "age_gte" then
      let invalid := df.filter (violatesAgeGte ty tm td r.field r.minAge)
      if invalid.isEmpty then
        match execute_custom_validations ty tm td mode rs df with
        | Except.ok res =>
            Except.ok ⟨res.issues, invalid.length + res.totalInvalid, res.finalDf⟩
        | Except.error e => Except.error e
      else if mode = "stop" then Except.error r.field
      else
        let df2 := if mode = "skip" then
            df.filter (fun x => !violatesAgeGte ty tm td r.field r.minAge x)
          else df
        match execute_custom_validations ty tm td mode rs df2 with
        | Except.ok res =>
            Except.ok ⟨(r.field, invalid) :: res.issues,
                       invalid.length + res.totalInvalid, res.finalDf⟩
        | Except.error e => Except.error e
    else
      execute_custom_validations ty tm td mode rs df

/-!
### Schema validation (`main.py` 56-88)

`validate_records_with_pydantic` first applies `fillna` defaults for
four known nullable columns, then feeds each row to the pydantic model.
Pydantic itself is an external collaborator, so the model is a
parameter: it either returns the validated (possibly coerced) record or
fails with a list of messages. Error records carry the 1-based row
index, the row, and the messages.
-/

/-- The `df.fillna` shim (`main.py` 58-63): replace a null in one of the
four listed columns by its default. -/
def fillnaShim (r : Row) : Row :=
  r.map (fun p =>
    if p.2 = Value.vnull then
      if p.1 = "trial_period_ends_on" ∨ p.1 = "ends_on"
          ∨ p.1 = "es_contract_observations" then (p.1, Value.vstr "")
      else if p.1 = "pt_contract_type_id" then (p.1, Value.vint 0)
      else p
    else p)

/-- One schema-error record (`main.py` 78): 1-based row index, the row's
data, the error messages. -/
abbrev ErrRecord := Nat × Row × List String

/-- The validation loop of `validate_records_with_pydantic`
(`main.py` 65-78), iterating from 0-based index `idx`. -/
def validateLoop (model : Row → Except (List String) Row) :
    List Row → Nat → List Row × List ErrRecord
  | [], _ => ([], [])
  | r :: rest, idx =>
    let (v, e) := validateLoop model rest (idx + 1)
    match model r with
    | Except.ok vr => (vr :: v, e)
    | Except.error msgs => (v, (idx + 1, r, msgs) :: e)

/-- `validate_records_with_pydantic` (`main.py` 56-82): fillna, then the
loop; returns (valid records, error records). -/
def validate_records_with_pydantic (model : Row → Except (List String) Row)
    (df : List Row) : List Row × List ErrRecord :=
  validateLoop model (df.map fillnaShim) 0

/-!
### Projections (`main.py` 223-265)
-/

/-- A `ProjectionSpec`: type (`view`/`table`), name, query text, alias
mapping in declaration order. -/
structure Projection where
  ptype : String
  name : String
  query : String
  aliases : List (String × String)
deriving DecidableEq, Repr

/-- `apply_aliases` (`main.py` 223-232): for each `(original, alias)`
pair in order, raise naming `original` when it is not a schema field,
otherwise rewrite every occurrence of `original` in the query to
`original AS alias`. An empty alias list returns the query unchanged. -/
def apply_aliases (schema : List String) :
    List (String × String) → String → Except String String
  | [], q => Except.ok q
  | (orig, al) :: rest, q =>
    if orig ∈ schema then
      apply_aliases schema rest (q.replace orig (orig ++ " AS " ++ al))
    else Except.error orig

/-- `create_views_with_projection` (`main.py` 234-265): for each spec of
type `view` with a non-empty query, rewrite the entity name to
`<entity>_stage`, apply aliases — an alias error skips this spec only —
and create the view. Returns the (name, final query) pairs of the views
actually created. -/
def create_views_with_projection (tbl : String) (projs : List Projection)
    (schema : List String) : List (String × String) :=
  match projs with
  | [] => []
  | p :: rest =>
    if p.ptype ≠ "view" then create_views_with_projection tbl rest schema
    else if p.query = "" then create_views_with_projection tbl rest schema
    else
      match apply_aliases schema p.aliases (p.query.replace tbl (tbl ++ "_stage")) with
      | Except.error _ => create_views_with_projection tbl rest schema
      | Except.ok q2 => (p.name, q2) :: create_views_with_projection tbl rest schema

/-!
### The orchestrator's artifact flow (`main.py` 429-505)

`main` writes error artifacts via `save_errors`, which writes a file
only for a non-empty error set. Modelled per its `try` block: schema
errors are saved, and in `stop` mode their presence ends the run; the
duplicate report is saved when non-empty; `execute_custom_validations`
runs, and a raised `ValueError` jumps to the handler at `main.py` 498,
skipping the `save_errors` loop at 466-469, so the abort writes no
custom-validation artifact; on normal return each recorded issue's
rows are saved. Projection building and export write no error
artifacts and do not affect this claim, so the model stops after the
custom-validation stage. -/

inductive Outcome where
  | completed : Outcome
  | schemaHalt : Outcome
  | ruleAborted : String → Outcome
deriving DecidableEq, Repr

/-- The artifact-writing control flow of `main` (`main.py` 429-505).
Returns the artifact file stems written, in write order, and the
outcome. -/
def runPipeline (model : Row → Except (List String) Row)
    (ty tm td : Int) (policy mode : String) (keys : List (List String))
    (rules : List Rule) (entity : String) (df : List Row) :
    List String × Outcome :=
  let (valid, schemaErrors) := validate_records_with_pydantic model df
  let arts0 := if schemaErrors.isEmpty then []
               else [entity ++ "_schema_validation_errors"]
  if !schemaErrors.isEmpty ∧ mode = "stop" then (arts0, Outcome.schemaHalt)
  else
    let (_, dups) := remove_duplicates_from_stage_table policy keys valid
    let arts1 := arts0 ++ (if dups.isEmpty then []
                           else [entity ++ "_duplicates_errors"])
    match execute_custom_validations ty tm td mode rules
        (remove_duplicates_from_stage_table policy keys valid).1 with
    | Except.error f => (arts1, Outcome.ruleAborted f)
    | Except.ok res =>
        (arts1 ++ (res.issues.filter (fun p => !p.2.isEmpty)).map
            (fun p => entity ++ "_custom_" ++ p.1 ++ "_errors"),
         Outcome.completed)

/-! ### Concrete rows used in the evaluation theorems -/

/-- Three rows sharing the composite key value `a = 1`, distinguished by
`id`. -/
def dupRow1 : Row := [("a", Value.vint 1), ("id", Value.vint 1)]
def dupRow2 : Row := [("a", Value.vint 1), ("id", Value.vint 2)]
def dupRow3 : Row := [("a", Value.vint 1), ("id", Value.vint 3)]

/-- A row whose `birthday_on` date gives age 14 on 2025-01-01, violating
`age_gte(min_age=18)`. -/
def youngRow : Row := [("birthday_on", Value.vdate 2010 6 1)]

/-- Rows for the key-order-sensitivity example: keys `["a"]` and `["b"]`
overlap on the middle row. -/
def ovRow1 : Row := [("a", Value.vint 1), ("b", Value.vint 1)]
def ovRow2 : Row := [("a", Value.vint 1), ("b", Value.vint 2)]
def ovRow3 : Row := [("a", Value.vint 2), ("b", Value.vint 2)]

/-- Two rows sharing key `a = 1` for a run that both removes a duplicate
and then aborts on the `age_gte` rule: the surviving first row is under
age on 2025-01-01. -/
def abortRow1 : Row := [("a", Value.vint 1), ("birthday_on", Value.vdate 2010 6 1)]
def abortRow2 : Row := [("a", Value.vint 1), ("birthday_on", Value.vdate 1990 6 1)]

/-- Projections for the alias-failure example: two well-formed views
around one whose alias references the field `ghost`, absent from the
schema `["name"]`. -/
def goodProj : Projection :=
  ⟨"view", "v_good", "SELECT name FROM employees", []⟩
def badProj : Projection :=
  ⟨"view", "v_bad", "SELECT ghost FROM employees", [("ghost", "g")]⟩
def goodProj2 : Projection :=
  ⟨"view", "v_good2", "SELECT name FROM employees", [("name", "n")]⟩

/-! ### Relating the two deduplication implementations -/

theorem mem_dupKeyTuples_iff (k : List String) (df : List Row) (r : Row)
    (hr : r ∈ df) :
    projKey k r ∈ dupKeyTuples k df ↔ 1 < tupleCount k df (projKey k r) := by
  unfold dupKeyTuples
  constructor
  · intro h
    have h2 := (List.mem_filter.mp h).2
    simpa using h2
  · intro h
    exact List.mem_filter.mpr ⟨List.mem_map.mpr ⟨r, hr, rfl⟩, by simpa using h⟩

theorem sqlExcludeAll_eq_pandasKeepNone (k : List String) (df : List Row) :
    sqlExcludeAllSplit k df = pandasSplitKeepNone k df := by
  have key : ∀ r ∈ df, (decide (projKey k r ∈ dupKeyTuples k df))
      = (decide (1 < tupleCount k df (projKey k r))) := by
    intro r hr
    rw [decide_eq_decide]
    exact mem_dupKeyTuples_iff k df r hr
  unfold sqlExcludeAllSplit pandasSplitKeepNone
  refine Prod.ext ?_ ?_
  · refine List.filter_congr ?_
    intro r hr
    rw [key r hr, ← decide_not, decide_eq_decide]
    exact Nat.not_lt
  · refine List.filter_congr ?_
    intro r hr
    exact key r hr

theorem sqlRowNumberSplit_eq_pandasKeepFirst (k : List String) (df : List Row) :
    ∀ (seen : List (List Value)) (pre : List Row),
      (∀ t, t ∈ seen ↔ t ∈ pre.map (projKey k)) →
      sqlRowNumberSplit k seen df = pandasSplitKeepFirst k pre df := by
  induction df with
  | nil => intro seen pre _; rfl
  | cons r rest ih =>
    intro seen pre h
    simp only [sqlRowNumberSplit, pandasSplitKeepFirst]
    rw [ih (projKey k r :: seen) (pre ++ [r]) (by
      intro t
      simp only [List.mem_cons, List.map_append, List.mem_append, h t,
        List.map_cons, List.map_nil, List.mem_singleton]
      tauto)]
    by_cases hc : projKey k r ∈ pre.map (projKey k)
    · rw [if_pos ((h _).mpr hc), if_pos hc]
    · rw [if_neg (fun hx => hc ((h _).mp hx)), if_neg hc]

/-! ### Counting lemmas for the per-group survivor/removed sizes -/

theorem tupleCount_pos (k : List String) (df : List Row) (t : List Value) :
    0 < tupleCount k df t ↔ t ∈ df.map (projKey k) := by
  simp only [tupleCount, List.length_pos_iff_exists_mem, List.mem_filter,
    List.mem_map, beq_iff_eq]

theorem tupleCount_cons (k : List String) (r : Row) (rest : List Row)
    (v : List Value) :
    tupleCount k (r :: rest) v
      = (if projKey k r = v then 1 else 0) + tupleCount k rest v := by
  by_cases h : projKey k r = v
  · simp [tupleCount, List.filter_cons, h, Nat.add_comm]
  · simp [tupleCount, List.filter_cons, h]

theorem sqlRowNumberSplit_counts (k : List String) (v : List Value)
    (df : List Row) :
    ∀ seen : List (List Value),
      ((sqlRowNumberSplit k seen df).1.filter
          (fun r => projKey k r == v)).length
        = (if v ∈ seen then 0 else min 1 (tupleCount k df v))
      ∧ ((sqlRowNumberSplit k seen df).2.filter
          (fun r => projKey k r == v)).length
        = tupleCount k df v - (if v ∈ seen then 0 else min 1 (tupleCount k df v)) := by
  induction df with
  | nil =>
    intro seen
    simp [sqlRowNumberSplit, tupleCount]
  | cons r rest ih =>
    intro seen
    have ihc := ih (projKey k r :: seen)
    rcases hsp : sqlRowNumberSplit k (projKey k r :: seen) rest with ⟨u, m⟩
    rw [hsp] at ihc
    rw [tupleCount_cons]
    simp only [sqlRowNumberSplit, hsp]
    by_cases hv : projKey k r = v
    · subst hv
      by_cases hs : projKey k r ∈ seen <;>
        simp_all [List.filter_cons, List.mem_cons] <;> omega
    · have hv2 : ¬(v = projKey k r) := fun h => hv h.symm
      by_cases hs : projKey k r ∈ seen <;> by_cases hw : v ∈ seen <;>
        simp_all [List.filter_cons, List.mem_cons]

theorem pandasSplitKeepLast_counts (k : List String) (v : List Value)
    (df : List Row) :
    ((pandasSplitKeepLast k df).1.filter
        (fun r => projKey k r == v)).length = min 1 (tupleCount k df v)
    ∧ ((pandasSplitKeepLast k df).2.filter
        (fun r => projKey k r == v)).length
      = tupleCount k df v - min 1 (tupleCount k df v) := by
  induction df with
  | nil => simp [pandasSplitKeepLast, tupleCount]
  | cons r rest ih =>
    rcases hsp : pandasSplitKeepLast k rest with ⟨u, m⟩
    rw [hsp] at ih
    obtain ⟨ih1, ih2⟩ := ih
    dsimp only at ih1 ih2
    rw [tupleCount_cons]
    simp only [pandasSplitKeepLast, hsp]
    by_cases hm : projKey k r ∈ rest.map (projKey k)
    · rw [if_pos hm]
      have hpos : 0 < tupleCount k rest (projKey k r) :=
        (tupleCount_pos k rest (projKey k r)).mpr hm
      by_cases hv : projKey k r = v
      · rw [hv] at hpos
        refine ⟨?_, ?_⟩
        · rw [ih1, if_pos hv]
          omega
        · simp only [List.filter_cons]
          simp [hv, ih2]
          omega
      · refine ⟨?_, ?_⟩
        · rw [ih1, if_neg hv]
          simp
        · simp only [List.filter_cons]
          simp [hv, ih2]
    · rw [if_neg hm]
      have hzero : tupleCount k rest (projKey k r) = 0 := by
        by_contra hne
        exact hm ((tupleCount_pos k rest (projKey k r)).mp (Nat.pos_of_ne_zero hne))
      by_cases hv : projKey k r = v
      · rw [hv] at hzero
        refine ⟨?_, ?_⟩
        · simp only [List.filter_cons]
          simp [hv, ih1, hzero]
        · rw [ih2, if_pos hv, hzero]
          omega
      · refine ⟨?_, ?_⟩
        · simp only [List.filter_cons]
          simp [hv, ih1]
        · rw [ih2, if_neg hv]
          simp

theorem pandasSplitKeepNone_counts (k : List String) (v : List Value)
    (df : List Row) (h : 1 < tupleCount k df v) :
    ((pandasSplitKeepNone k df).1.filter
        (fun r => projKey k r == v)).length = 0
    ∧ ((pandasSplitKeepNone k df).2.filter
        (fun r => projKey k r == v)).length = tupleCount k df v := by
  constructor
  · rw [List.length_eq_zero, List.filter_eq_nil_iff]
    intro r hr
    have h1 := (List.mem_filter.mp hr).2
    simp only [decide_eq_true_eq] at h1
    simp only [beq_iff_eq]
    intro he
    rw [he] at h1
    omega
  · unfold pandasSplitKeepNone
    rw [List.filter_filter]
    have : tupleCount k df v
        = (df.filter (fun r => projKey k r == v)).length := rfl
    rw [this]
    congr 1
    refine List.filter_congr ?_
    intro r _
    by_cases he : projKey k r = v
    · simp [he, h]
    · simp [he]

/-- C3: for a single composite key and a key tuple `v` held by `N > 1`
rows, both deduplication implementations leave exactly one row of the
group in the surviving dataset and put `N - 1` rows of the group in the
removed report under `first`/`last`, and leave `0` rows surviving while
reporting all `N` under `exclude_all`. (For `last` the counts are right
even though the identities are not: see C1.) -/
theorem c3_group_counts (k : List String) (df : List Row) (v : List Value)
    (hN : 1 < tupleCount k df v) :
    (∀ policy, policy = "first" ∨ policy = "last" →
        ((remove_duplicates_from_stage_table policy [k] df).1.filter
            (fun r => projKey k r == v)).length = 1
        ∧ ((remove_duplicates_from_stage_table policy [k] df).2.filter
            (fun r => projKey k r == v)).length = tupleCount k df v - 1)
    ∧ (((remove_duplicates_from_stage_table "exclude_all" [k] df).1.filter
          (fun r => projKey k r == v)).length = 0
        ∧ ((remove_duplicates_from_stage_table "exclude_all" [k] df).2.filter
          (fun r => projKey k r == v)).length = tupleCount k df v)
    ∧ (∀ res, res = "first" ∨ res = "last" →
        ((remove_composite_duplicates res [k] df).1.filter
            (fun r => projKey k r == v)).length = 1
        ∧ ((remove_composite_duplicates res [k] df).2.filter
            (fun r => projKey k r == v)).length = tupleCount k df v - 1)
    ∧ (((remove_composite_duplicates "exclude_all" [k] df).1.filter
          (fun r => projKey k r == v)).length = 0
        ∧ ((remove_composite_duplicates "exclude_all" [k] df).2.filter
          (fun r => projKey k r == v)).length = tupleCount k df v) := by
  have hsql := sqlRowNumberSplit_counts k v df []
  rw [if_neg (List.not_mem_nil v)] at hsql
  obtain ⟨hsql1, hsql2⟩ := hsql
  have hlast := pandasSplitKeepLast_counts k v df
  obtain ⟨hlast1, hlast2⟩ := hlast
  have hfirst_eq :
      pandasSplitKeepFirst k [] df = sqlRowNumberSplit k [] df :=
    (sqlRowNumberSplit_eq_pandasKeepFirst k df [] [] (fun t => by simp)).symm
  have hnone := pandasSplitKeepNone_counts k v df hN
  obtain ⟨hnone1, hnone2⟩ := hnone
  have hxeq := sqlExcludeAll_eq_pandasKeepNone k df
  refine ⟨?_, ?_, ?_, ?_⟩
  · intro policy hp
    have hne : policy ≠ "exclude_all" := by
      rcases hp with h | h <;> subst h <;> decide
    have heng : remove_duplicates_from_stage_table policy [k] df
        = ((sqlRowNumberSplit k [] df).1, (sqlRowNumberSplit k [] df).2) := by
      rcases hsp : sqlRowNumberSplit k [] df with ⟨sd, sm⟩
      simp [remove_duplicates_from_stage_table, stageDedupKey, if_neg hne,
        if_pos hp, hsp]
    rw [heng]
    exact ⟨by rw [hsql1]; omega, by rw [hsql2]; omega⟩
  · have heng : remove_duplicates_from_stage_table "exclude_all" [k] df
        = ((sqlExcludeAllSplit k df).1, (sqlExcludeAllSplit k df).2) := by
      rcases hsp : sqlExcludeAllSplit k df with ⟨xd, xm⟩
      simp [remove_duplicates_from_stage_table, stageDedupKey, hsp]
    rw [heng, hxeq]
    exact ⟨hnone1, hnone2⟩
  · intro res hr
    rcases hr with h | h
    · subst h
      have hpan : remove_composite_duplicates "first" [k] df
          = ((pandasSplitKeepFirst k [] df).1,
             (pandasSplitKeepLast k df).2) := by
        rcases hp1 : pandasSplitKeepFirst k [] df with ⟨fu, fm⟩
        rcases hp2 : pandasSplitKeepLast k df with ⟨lu, lm⟩
        simp [remove_composite_duplicates, reduceIte, hp1, hp2]
      rw [hpan, hfirst_eq]
      exact ⟨by rw [hsql1]; omega, by rw [hlast2]; omega⟩
    · subst h
      have hpan : remove_composite_duplicates "last" [k] df
          = ((pandasSplitKeepLast k df).1,
             (pandasSplitKeepFirst k [] df).2) := by
        rcases hp1 : pandasSplitKeepFirst k [] df with ⟨fu, fm⟩
        rcases hp2 : pandasSplitKeepLast k df with ⟨lu, lm⟩
        simp [remove_composite_duplicates, reduceIte, hp1, hp2]
      rw [hpan, hfirst_eq]
      exact ⟨by rw [hlast1]; omega, by rw [hsql2]; omega⟩
  · have hpan : remove_composite_duplicates "exclude_all" [k] df
        = ((pandasSplitKeepNone k df).1, (pandasSplitKeepNone k df).2) := by
      rcases hp1 : pandasSplitKeepNone k df with ⟨nu, nm⟩
      simp [remove_composite_duplicates, hp1]
    rw [hpan]
    exact ⟨hnone1, hnone2⟩

/-- C3 witness: three rows sharing the key value `a = 1` (`N = 3`),
policy `last`: one survivor and two reported rows. -/
theorem c3_group_counts_witness :
    1 < tupleCount ["a"] [dupRow1, dupRow2, dupRow3] [Value.vint 1]
    ∧ (((remove_duplicates_from_stage_table "last" [["a"]]
          [dupRow1, dupRow2, dupRow3]).1.filter
          (fun r => projKey ["a"] r == [Value.vint 1])).length = 1
       ∧ ((remove_duplicates_from_stage_table "last" [["a"]]
          [dupRow1, dupRow2, dupRow3]).2.filter
          (fun r => projKey ["a"] r == [Value.vint 1])).length
         = tupleCount ["a"] [dupRow1, dupRow2, dupRow3] [Value.vint 1] - 1) :=
  ⟨by decide,
   (c3_group_counts ["a"] [dupRow1, dupRow2, dupRow3] [Value.vint 1]
      (by decide)).1 "last" (Or.inr rfl)⟩

/-- C9 counterexample: the SQL and pandas deduplications disagree —
under `last` on three rows sharing key `a` even the surviving datasets
differ (SQL keeps the first row, pandas the last); under `first` the
removed-rows reports differ (SQL reports all but the first occurrence,
pandas all but the last); and under `last` with the two keys
`[a]`, `[b]` the removed-rows reports differ as well (the second key's
pass runs on the different tables left by the first: SQL removes only
`ovRow2`, pandas removes `ovRow2` and then `ovRow3`). -/
theorem c9_implementations_differ :
    (remove_duplicates_from_stage_table "last" [["a"]] [dupRow1, dupRow2, dupRow3]).1
      ≠ (remove_composite_duplicates "last" [["a"]] [dupRow1, dupRow2, dupRow3]).1
    ∧ (remove_duplicates_from_stage_table "first" [["a"]] [dupRow1, dupRow2, dupRow3]).2
      ≠ (remove_composite_duplicates "first" [["a"]] [dupRow1, dupRow2, dupRow3]).2
    ∧ (remove_duplicates_from_stage_table "last" [["a"], ["b"]]
        [ovRow1, ovRow2, ovRow3]).2
      ≠ (remove_composite_duplicates "last" [["a"], ["b"]]
        [ovRow1, ovRow2, ovRow3]).2 := by
  refine ⟨by decide, by decide, by decide⟩

/-- C9 amended: the two deduplication implementations agree only
partially — under `exclude_all` they produce the same surviving dataset
and the same removed-rows report for every dataset and key list, and
under `first` they produce the same surviving dataset (their removed
reports can differ); under `last` even the surviving datasets can
differ. -/
theorem c9_amended_agreement (keys : List (List String)) (df : List Row) :
    remove_duplicates_from_stage_table "exclude_all" keys df
      = remove_composite_duplicates "exclude_all" keys df
    ∧ (remove_duplicates_from_stage_table "first" keys df).1
      = (remove_composite_duplicates "first" keys df).1 := by
  induction keys generalizing df with
  | nil => exact ⟨rfl, rfl⟩
  | cons k ks ih =>
    constructor
    · simp only [remove_duplicates_from_stage_table, remove_composite_duplicates,
        stageDedupKey, if_pos rfl, reduceIte, sqlExcludeAll_eq_pandasKeepNone]
      rw [(ih (pandasSplitKeepNone k df).1).1]
    · have hfirst : stageDedupKey "first" k df = sqlRowNumberSplit k [] df := by
        unfold stageDedupKey
        rw [if_neg (by decide), if_pos (Or.inl rfl)]
      have hsplit := sqlRowNumberSplit_eq_pandasKeepFirst k df [] []
        (fun t => by simp)
      simp only [remove_duplicates_from_stage_table, remove_composite_duplicates,
        hfirst, hsplit, reduceIte]
      exact (ih (pandasSplitKeepFirst k [] df).1).2

/-- C1: the claim says policy `last` keeps the last row of each group
and reports the others removed — on three rows sharing key `a`, survivor
`dupRow3` and report `[dupRow1, dupRow2]`. Evaluating the code instead:
the SQL implementation keeps the FIRST row (its `first` and `last`
branches run the identical `ROW_NUMBER ... ORDER BY ROWID` delete,
despite printing "keeping 'last'"), and the pandas implementation keeps
the last row but reports `[dupRow2, dupRow3]`, i.e. it reports the
survivor itself as removed and omits the removed `dupRow1`. -/
theorem c1_keep_last_evaluation :
    remove_duplicates_from_stage_table "last" [["a"]] [dupRow1, dupRow2, dupRow3]
      = ([dupRow1], [dupRow2, dupRow3])
    ∧ remove_composite_duplicates "last" [["a"]] [dupRow1, dupRow2, dupRow3]
      = ([dupRow3], [dupRow2, dupRow3]) := by
  constructor <;> decide

/-- C2: composite keys are processed sequentially in declaration order,
each key's pass running on the dataset as already reduced by the prior
keys, with the duplicate reports concatenated in pass order; and on a
concrete dataset with overlapping groups, keys `[a], [b]` leave a
different survivor set than `[b], [a]`. Determinism is intrinsic: the
embedding is a function of the policy, key list and input order. -/
theorem c2_sequential_order_dependent :
    (∀ (p : String) (k : List String) (ks : List (List String)) (df : List Row),
      remove_duplicates_from_stage_table p (k :: ks) df
        = ((remove_duplicates_from_stage_table p ks (stageDedupKey p k df).1).1,
           (stageDedupKey p k df).2
             ++ (remove_duplicates_from_stage_table p ks (stageDedupKey p k df).1).2))
    ∧ (remove_duplicates_from_stage_table "first" [["a"], ["b"]]
          [ovRow1, ovRow2, ovRow3]).1
        ≠ (remove_duplicates_from_stage_table "first" [["b"], ["a"]]
          [ovRow1, ovRow2, ovRow3]).1 := by
  refine ⟨fun p k ks df => rfl, by decide⟩

/-- C10: a `duplicate_resolution` outside {`exclude_all`, `first`,
`last`} matches neither branch of the per-key loop, so the stage table
is left equal to the input and the duplicate report is empty, with no
error raised. -/
theorem c10_unknown_policy_noop (policy : String) (keys : List (List String))
    (df : List Row) (h1 : policy ≠ "exclude_all") (h2 : policy ≠ "first")
    (h3 : policy ≠ "last") :
    remove_duplicates_from_stage_table policy keys df = (df, []) := by
  induction keys generalizing df with
  | nil => rfl
  | cons k ks ih =>
    have hk : stageDedupKey policy k df = (df, []) := by
      unfold stageDedupKey
      rw [if_neg h1, if_neg]
      rintro (h | h)
      · exact h2 h
      · exact h3 h
    simp [remove_duplicates_from_stage_table, hk, ih]

/-- C10 witness: the policy string `keep_last` (a plausible
misconfiguration) on one key and one row. -/
theorem c10_witness :
    remove_duplicates_from_stage_table "keep_last" [["a"]] [dupRow1]
      = ([dupRow1], []) :=
  c10_unknown_policy_noop "keep_last" [["a"]] [dupRow1]
    (by decide) (by decide) (by decide)

/-- C5: in `stop` mode, with every rule before `rv` clean on the stage
table (not of kind `age_gte`, or with an empty violating-row set) and
`rv` an `age_gte` rule with a non-empty violating-row set, the stage
raises an error carrying `rv`'s field — for any tail of later rules, so
no subsequent rule is evaluated. Clean rules neither record issues nor
change the table in `stop` mode, so the table `rv` sees is `df`. -/
theorem c5_stop_first_violation_aborts (ty tm td : Int) (pre rest : List Rule)
    (rv : Rule) (df : List Row)
    (hpre : ∀ r ∈ pre, r.validation = "age_gte" →
      df.filter (violatesAgeGte ty tm td r.field r.minAge) = [])
    (hv : rv.validation = "age_gte")
    (hviol : df.filter (violatesAgeGte ty tm td rv.field rv.minAge) ≠ []) :
    execute_custom_validations ty tm td "stop" (pre ++ rv :: rest) df
      = Except.error rv.field := by
  induction pre with
  | nil =>
    rcases hfe : df.filter (violatesAgeGte ty tm td rv.field rv.minAge)
        with _ | ⟨a, l⟩
    · exact absurd hfe hviol
    · simp [execute_custom_validations, hv, hfe]
  | cons r pre2 ih =>
    have ihtail := ih (fun r2 h2 => hpre r2 (List.mem_cons_of_mem _ h2))
    by_cases hra : r.validation = "age_gte"
    · have hempty := hpre r (List.mem_cons_self r pre2) hra
      simp only [List.cons_append, execute_custom_validations, hra, if_pos,
        hempty, List.isEmpty_nil, if_true, List.append_eq, ihtail]
    · simp only [List.cons_append, execute_custom_validations, if_neg hra,
        List.append_eq, ihtail]

/-- C5 witness: a clean non-`age_gte` rule first, then the violating
`birthday_on` rule, then a later rule that is never reached. -/
theorem c5_stop_witness :
    execute_custom_validations 2025 1 1 "stop"
        ([Rule.mk "other" "regex" 0]
          ++ Rule.mk "birthday_on" "age_gte" 18
            :: [Rule.mk "later" "age_gte" 18]) [youngRow]
      = Except.error "birthday_on" :=
  c5_stop_first_violation_aborts 2025 1 1 [Rule.mk "other" "regex" 0]
    [Rule.mk "later" "age_gte" 18] (Rule.mk "birthday_on" "age_gte" 18)
    [youngRow] (by decide) rfl (by decide)

theorem execute_skip_ok (ty tm td : Int) (rules : List Rule) :
    ∀ df : List Row, ∃ res,
      execute_custom_validations ty tm td "skip" rules df = Except.ok res
      ∧ res.totalInvalid = (res.issues.map (fun p => p.2.length)).sum := by
  induction rules with
  | nil => intro df; exact ⟨⟨[], 0, df⟩, rfl, rfl⟩
  | cons r rs ih =>
    intro df
    by_cases hra : r.validation = "age_gte"
    · rcases hfe : df.filter (violatesAgeGte ty tm td r.field r.minAge)
          with _ | ⟨a, l⟩
      · obtain ⟨res, hr1, hr2⟩ := ih df
        refine ⟨⟨res.issues, 0 + res.totalInvalid, res.finalDf⟩, ?_, ?_⟩
        · simp [execute_custom_validations, hra, hfe, hr1]
        · simpa using hr2
      · obtain ⟨res, hr1, hr2⟩ :=
          ih (df.filter (fun x => !violatesAgeGte ty tm td r.field r.minAge x))
        refine ⟨⟨(r.field, a :: l) :: res.issues,
                 (a :: l).length + res.totalInvalid, res.finalDf⟩, ?_, ?_⟩
        · simp [execute_custom_validations, hra, hfe, hr1]
        · simp [hr2]
    · obtain ⟨res, hr1, hr2⟩ := ih df
      exact ⟨res, by simp [execute_custom_validations, hra, hr1], hr2⟩

/-- C6: in `skip` mode every rule is evaluated and the stage returns
normally, with the invalid-row count equal to the sum of the recorded
violation-set sizes; and when an `age_gte` rule at the head has a
non-empty violating-row set, those rows are recorded under the rule's
field and deleted from the stage table before the remaining rules run on
the reduced table. -/
theorem c6_skip_mode (ty tm td : Int) (rules : List Rule) (df : List Row) :
    (∃ res, execute_custom_validations ty tm td "skip" rules df = Except.ok res
       ∧ res.totalInvalid = (res.issues.map (fun p => p.2.length)).sum)
    ∧ (∀ r rs, r.validation = "age_gte" →
        df.filter (violatesAgeGte ty tm td r.field r.minAge) ≠ [] →
        execute_custom_validations ty tm td "skip" (r :: rs) df
          = (execute_custom_validations ty tm td "skip" rs
              (df.filter (fun x => !violatesAgeGte ty tm td r.field r.minAge x))).map
              (fun res =>
                ⟨(r.field, df.filter (violatesAgeGte ty tm td r.field r.minAge))
                    :: res.issues,
                  (df.filter (violatesAgeGte ty tm td r.field r.minAge)).length
                    + res.totalInvalid,
                  res.finalDf⟩)) := by
  constructor
  · exact execute_skip_ok ty tm td rules df
  · intro r rs hra hne
    rcases hfe : df.filter (violatesAgeGte ty tm td r.field r.minAge)
        with _ | ⟨a, l⟩
    · exact absurd hfe hne
    · rcases hrec : execute_custom_validations ty tm td "skip" rs
          (df.filter (fun x => !violatesAgeGte ty tm td r.field r.minAge x))
          with e | res
      · simp [execute_custom_validations, hra, hfe, hrec, Except.map]
      · simp [execute_custom_validations, hra, hfe, hrec, Except.map]

/-- C6 witness: one violating `age_gte` rule in `skip` mode on one young
row. -/
theorem c6_skip_witness :
    execute_custom_validations 2025 1 1 "skip"
        [Rule.mk "birthday_on" "age_gte" 18] [youngRow]
      = (execute_custom_validations 2025 1 1 "skip" []
          ([youngRow].filter
            (fun x => !violatesAgeGte 2025 1 1 "birthday_on" 18 x))).map
          (fun res =>
            ⟨("birthday_on",
                [youngRow].filter (violatesAgeGte 2025 1 1 "birthday_on" 18))
                :: res.issues,
              ([youngRow].filter
                (violatesAgeGte 2025 1 1 "birthday_on" 18)).length
                + res.totalInvalid,
              res.finalDf⟩) :=
  (c6_skip_mode 2025 1 1 [Rule.mk "birthday_on" "age_gte" 18] [youngRow]).2
    (Rule.mk "birthday_on" "age_gte" 18) [] rfl (by decide)

theorem validateLoop_spec (model : Row → Except (List String) Row) :
    ∀ (l : List Row) (idx : Nat),
      (validateLoop model l idx).1
        = l.filterMap (fun r => (model r).toOption)
      ∧ (validateLoop model l idx).2.map (fun e => e.2.1)
        = l.filter (fun r => !(model r).toOption.isSome)
      ∧ (validateLoop model l idx).1.length
          + (validateLoop model l idx).2.length = l.length := by
  intro l
  induction l with
  | nil => intro idx; exact ⟨rfl, rfl, rfl⟩
  | cons r rest ih =>
    intro idx
    obtain ⟨ih1, ih2, ih3⟩ := ih (idx + 1)
    rcases hm : model r with msgs | vr
    · refine ⟨?_, ?_, ?_⟩
      · simp [validateLoop, hm, ih1, Except.toOption]
      · simp [validateLoop, hm, ih2, Except.toOption]
      · simp only [validateLoop, hm]
        simp [List.length_cons] at ih3 ⊢
        omega
    · refine ⟨?_, ?_, ?_⟩
      · simp [validateLoop, hm, ih1, Except.toOption]
      · simp [validateLoop, hm, ih2, Except.toOption]
      · simp only [validateLoop, hm]
        simp [List.length_cons] at ih3 ⊢
        omega

/-- C7: schema validation partitions the (fillna-shimmed) input: the
valid sequence is exactly the successful validations in order (each
record's validated image), the error records carry exactly the failing
records in order, and the two result sizes sum to the input size — no
record is lost or duplicated. -/
theorem c7_schema_partition (model : Row → Except (List String) Row)
    (df : List Row) :
    (validate_records_with_pydantic model df).1.length
      + (validate_records_with_pydantic model df).2.length = df.length
    ∧ (validate_records_with_pydantic model df).1
        = (df.map fillnaShim).filterMap (fun r => (model r).toOption)
    ∧ (validate_records_with_pydantic model df).2.map (fun e => e.2.1)
        = (df.map fillnaShim).filter (fun r => !(model r).toOption.isSome) := by
  obtain ⟨h1, h2, h3⟩ := validateLoop_spec model (df.map fillnaShim) 0
  refine ⟨?_, ?_, ?_⟩
  · unfold validate_records_with_pydantic
    rw [h3, List.length_map]
  · exact h1
  · exact h2

theorem apply_aliases_error (schema : List String) :
    ∀ (aliases : List (String × String)) (q : String),
      (∃ p ∈ aliases, p.1 ∉ schema) →
      ∃ f, apply_aliases schema aliases q = Except.error f ∧ f ∉ schema := by
  intro aliases
  induction aliases with
  | nil =>
    intro q h
    rcases h with ⟨p, hp, _⟩
    simp at hp
  | cons pa rest ih =>
    intro q h
    rcases pa with ⟨orig, al⟩
    by_cases ho : orig ∈ schema
    · have h2 : ∃ p ∈ rest, p.1 ∉ schema := by
        rcases h with ⟨p, hp, hns⟩
        rcases List.mem_cons.mp hp with he | hmem
        · exact absurd (by rw [he]; exact ho) hns
        · exact ⟨p, hmem, hns⟩
      obtain ⟨f, hf1, hf2⟩ := ih (q.replace orig (orig ++ " AS " ++ al)) h2
      exact ⟨f, by simp [apply_aliases, ho, hf1], hf2⟩
    · exact ⟨orig, by simp [apply_aliases, ho], ho⟩

/-- C8: when one view projection's alias mapping references a source
field absent from the schema, applying its aliases fails with a
configuration error naming an absent field, and the projection list with
that spec inside builds exactly the views of the list without it — every
other projection is still built. -/
theorem c8_alias_failure_isolated (tbl : String) (schema : List String)
    (ps1 ps2 : List Projection) (bad : Projection)
    (hv : bad.ptype = "view") (hq : bad.query ≠ "")
    (hbad : ∃ p ∈ bad.aliases, p.1 ∉ schema) :
    (∃ f, apply_aliases schema bad.aliases
        (bad.query.replace tbl (tbl ++ "_stage")) = Except.error f
        ∧ f ∉ schema)
    ∧ create_views_with_projection tbl (ps1 ++ bad :: ps2) schema
        = create_views_with_projection tbl ps1 schema
          ++ create_views_with_projection tbl ps2 schema := by
  obtain ⟨f, hf1, hf2⟩ :=
    apply_aliases_error schema bad.aliases
      (bad.query.replace tbl (tbl ++ "_stage")) hbad
  refine ⟨⟨f, hf1, hf2⟩, ?_⟩
  induction ps1 with
  | nil =>
    simp only [List.nil_append, create_views_with_projection, hf1]
    rw [if_neg (fun hcon => hcon hv), if_neg hq]
  | cons p ps ih =>
    simp only [List.cons_append, create_views_with_projection]
    by_cases h1 : p.ptype ≠ "view"
    · rw [if_pos h1, if_pos h1]
      exact ih
    · rw [if_neg h1, if_neg h1]
      by_cases h2 : p.query = ""
      · rw [if_pos h2, if_pos h2]
        exact ih
      · rw [if_neg h2, if_neg h2]
        rcases ha : apply_aliases schema p.aliases
            (p.query.replace tbl (tbl ++ "_stage")) with e | q2
        · simp only [ha]
          exact ih
        · simp only [ha, List.append_eq]
          rw [ih, List.cons_append]

/-- C8 witness: two well-formed views around the alias-broken `v_bad`
against the schema `["name"]`. -/
theorem c8_witness :
    (∃ f, apply_aliases ["name"] badProj.aliases
        (badProj.query.replace "employees" ("employees" ++ "_stage"))
        = Except.error f ∧ f ∉ ["name"])
    ∧ create_views_with_projection "employees"
        ([goodProj] ++ badProj :: [goodProj2]) ["name"]
      = create_views_with_projection "employees" [goodProj] ["name"]
        ++ create_views_with_projection "employees" [goodProj2] ["name"] :=
  c8_alias_failure_isolated "employees" ["name"] [goodProj] [goodProj2]
    badProj rfl (by decide) (by decide)

/-- C4 counterexample: a `stop`-mode run whose only error set is the
aborting rule's violating rows. The claim says those rows are written
before the abort completes; the run aborts with the rule's identity but
the written-artifact list is empty — the `ValueError` raised inside the
validation stage skips the save loop in `main`. -/
theorem c4_stop_abort_writes_no_rule_artifact :
    runPipeline (fun r => Except.ok r) 2025 1 1 "first" "stop" []
        [Rule.mk "birthday_on" "age_gte" 18] "employees" [youngRow]
      = ([], Outcome.ruleAborted "birthday_on")
    ∧ "employees_custom_birthday_on_errors"
        ∉ (runPipeline (fun r => Except.ok r) 2025 1 1 "first" "stop" []
            [Rule.mk "birthday_on" "age_gte" 18] "employees" [youngRow]).1 := by
  constructor <;> decide

/-- C4 amended: when a run aborts on a `stop`-mode rule violation, the
artifacts written before the abort are exactly those of the stages
completed earlier — the schema-error set if non-empty and the duplicate
report if non-empty; the violating-row sets of the rule that triggered
the abort are not written. -/
theorem c4_amended_artifacts_on_abort
    (model : Row → Except (List String) Row) (ty tm td : Int)
    (policy mode : String) (keys : List (List String)) (rules : List Rule)
    (entity : String) (df : List Row) (f : String)
    (h : (runPipeline model ty tm td policy mode keys rules entity df).2
          = Outcome.ruleAborted f) :
    (runPipeline model ty tm td policy mode keys rules entity df).1
      = (if (validate_records_with_pydantic model df).2.isEmpty then []
         else [entity ++ "_schema_validation_errors"])
        ++ (if (remove_duplicates_from_stage_table policy keys
                (validate_records_with_pydantic model df).1).2.isEmpty then []
            else [entity ++ "_duplicates_errors"]) := by
  rcases hvp : validate_records_with_pydantic model df with ⟨valid, schemaErrors⟩
  rcases hdd : remove_duplicates_from_stage_table policy keys valid
      with ⟨staged, dups⟩
  by_cases hc : (!schemaErrors.isEmpty) ∧ mode = "stop"
  · exfalso
    simp only [runPipeline, hvp, if_pos hc] at h
    exact Outcome.noConfusion h
  · rcases hex : execute_custom_validations ty tm td mode rules staged
        with e | res
    · simp only [runPipeline, hvp, hdd, if_neg hc, hex]
    · exfalso
      simp only [runPipeline, hvp, hdd, if_neg hc, hex] at h
      exact Outcome.noConfusion h

/-- C4 amended witness: a run that removes one duplicate row, then
aborts on the `birthday_on` rule: only the duplicates artifact is
written. -/
theorem c4_amended_witness :
    (runPipeline (fun r => Except.ok r) 2025 1 1 "first" "stop" [["a"]]
        [Rule.mk "birthday_on" "age_gte" 18] "employees"
        [abortRow1, abortRow2]).1
      = (if (validate_records_with_pydantic (fun r => Except.ok r)
              [abortRow1, abortRow2]).2.isEmpty then []
         else ["employees" ++ "_schema_validation_errors"])
        ++ (if (remove_duplicates_from_stage_table "first" [["a"]]
                (validate_records_with_pydantic (fun r => Except.ok r)
                  [abortRow1, abortRow2]).1).2.isEmpty then []
            else ["employees" ++ "_duplicates_errors"]) :=
  c4_amended_artifacts_on_abort (fun r => Except.ok r) 2025 1 1 "first"
    "stop" [["a"]] [Rule.mk "birthday_on" "age_gte" 18] "employees"
    [abortRow1, abortRow2] "birthday_on" (by decide)

end Importer
